import Mathlib

/-!
Formal model of the fruit-quality video pipeline
(`src/quality/score.py`, `src/pipeline/decorators.py`, `src/vision/capture.py`,
`src/vision/detect.py`, `src/events/publisher.py`, `src/search/indexer.py`,
`src/pipeline/orchestrator.py`), embedded shallowly in Lean 4.

Conventions of the embedding:
* Python floats are modelled by rationals (`ℚ`); the claims treat the float
  arithmetic as exact within tolerance.
* A frame (`numpy` array of shape H×W×C) is a list of rows, each a list of
  pixels, each a list of channel values.
* Exceptions are modelled with `Except`; a Python function that may raise
  returns `Except ε α`.
* External collaborators explicitly out of scope of the spec (the YOLO
  detector, the cv2 colour/texture analysis kernels, cv2 drawing primitives,
  the display window's key polling, wall-clock timestamps) are parameters of
  the model, exactly at the call sites where the source invokes them.
-/

/-- A raster image: rows × columns × channels of 8-bit values. -/
def Frame : Type := List (List (List ℕ))

instance : DecidableEq Frame := by unfold Frame; infer_instance

/-- Python/numpy slice `l[i:j]` on one axis: negative indices count from the
end, out-of-range bounds are clamped, an empty range gives `[]`. -/
def pySlice {α : Type} (l : List α) (i j : ℤ) : List α :=
  let n : ℤ := l.length
  let lo : ℕ := (if i < 0 then max 0 (n + i) else min i n).toNat
  let hi : ℕ := (if j < 0 then max 0 (n + j) else min j n).toNat
  (l.take hi).drop lo

/-- `frame[y1:y2, x1:x2]`: the region of interest extracted in
`assess_freshness` (`score.py` line 54). -/
def extractRoi (frame : Frame) (y1 y2 x1 x2 : ℤ) : Frame :=
  (pySlice frame y1 y2).map (fun row => pySlice row x1 x2)

/-- `roi.size`: the total number of scalar entries of the array. -/
def roiSize (r : Frame) : ℕ :=
  (r.map (fun row => (row.map List.length).sum)).sum

/-- `FreshnessLevel` enum (`score.py` lines 15-19). -/
inductive FreshnessLevel : Type
  | fresh
  | medium
  | rotten
  deriving DecidableEq, Repr

/-- The `.value` string of each enum member. -/
def FreshnessLevel.value : FreshnessLevel → String
  | .fresh => "fresh"
  | .medium => "medium"
  | .rotten => "rotten"

/-- `QualityScore` dataclass (`score.py` lines 24-31). -/
structure QualityScore : Type where
  freshness_level : FreshnessLevel
  score : ℚ
  color_score : ℚ
  texture_score : ℚ
  confidence : ℚ
  deriving DecidableEq, Repr

/-- `_default_score` (`score.py` lines 114-122): the fixed neutral result for
an empty region. -/
def default_score : QualityScore :=
  { freshness_level := FreshnessLevel.medium
    score := 50
    color_score := 50
    texture_score := 50
    confidence := 0 }

/-- `assess_freshness` (`score.py` lines 34-82).  The colour and texture
analysis kernels `_analyze_color` / `_analyze_texture` call into cv2 and are
outside the specified core (spec §1 non-goals); they are taken as parameters
`analyzeColor` / `analyzeTexture`, applied to the extracted region exactly as
the source applies `_analyze_color(roi, fruit_type)` and
`_analyze_texture(roi)`. -/
def assess_freshness (analyzeColor : Frame → Option String → ℚ)
    (analyzeTexture : Frame → ℚ)
    (frame : Frame) (bbox : ℤ × ℤ × ℤ × ℤ) (fruit_type : Option String) :
    QualityScore :=
  let (x1, y1, x2, y2) := bbox
  let roi := extractRoi frame y1 y2 x1 x2
  if roiSize roi = 0 then
    default_score
  else
    let color_score := analyzeColor roi fruit_type
    let texture_score := analyzeTexture roi
    let overall_score := color_score * (6 / 10) + texture_score * (4 / 10)
    let level :=
      if overall_score ≥ 70 then FreshnessLevel.fresh
      else if overall_score ≥ 40 then FreshnessLevel.medium
      else FreshnessLevel.rotten
    { freshness_level := level
      score := overall_score
      color_score := color_score
      texture_score := texture_score
      confidence := 3 / 4 }

instance {ε α : Type} [DecidableEq ε] [DecidableEq α] : DecidableEq (Except ε α)
  | .ok a, .ok b =>
    if h : a = b then .isTrue (by rw [h]) else .isFalse (by simp [h])
  | .ok _, .error _ => .isFalse (by simp)
  | .error _, .ok _ => .isFalse (by simp)
  | .error e, .error f =>
    if h : e = f then .isTrue (by rw [h]) else .isFalse (by simp [h])

/-- `Except.isOk`-style discriminator used to phrase "the operation raised". -/
def isErr {ε α : Type} : Except ε α → Bool
  | .error _ => true
  | .ok _ => false

/-- The loop body of the `retry` decorator (`decorators.py` lines 36-44),
unrolled over the iterations of `range(max_attempts)` that remain.
`op i` is the outcome of the i-th invocation of the wrapped function
(counting from 0); the result pairs the wrapper's outcome — `.ok (some a)`
for a returned value, `.ok none` for the trailing `return None`, `.error e`
for a re-raised exception — with the number of invocations performed. -/
def retryFrom {ε α : Type} (op : ℕ → Except ε α) (max_attempts : ℤ) :
    ℕ → ℕ → Except ε (Option α) × ℕ
  | _, 0 => (Except.ok none, 0)
  | attempt, remaining + 1 =>
    match op attempt with
    | .ok a => (Except.ok (some a), 1)
    | .error e =>
      if (attempt : ℤ) = max_attempts - 1 then (Except.error e, 1)
      else
        let r := retryFrom op max_attempts (attempt + 1) remaining
        (r.1, r.2 + 1)

/-- `retry(max_attempts, delay)` applied to an operation (`decorators.py`
lines 31-46): the `for attempt in range(max_attempts)` loop performs
`max(0, max_attempts)` iterations at most; `delay` only feeds `time.sleep`
and has no observable effect on the result. -/
def retryRun {ε α : Type} (max_attempts : ℤ) (op : ℕ → Except ε α) :
    Except ε (Option α) × ℕ :=
  retryFrom op max_attempts 0 max_attempts.toNat

/-- The `while cap.isOpened()` loop of `stream_frames` (`capture.py` lines
32-43).  `reads` is the stream of `(ret, frame)` results that successive
`cap.read()` calls would produce; exhaustion of the list stands for the
device returning `ret = False` from then on.  `frame_count` is the loop
counter. -/
def streamFrom : List (Bool × Frame) → ℤ → ℕ → List (Bool × Frame)
  | [], _, _ => []
  | (ret, frame) :: rest, max_frames, frame_count =>
    if 0 < max_frames ∧ max_frames ≤ (frame_count : ℤ) then []
    else if !ret then []
    else (ret, frame) :: streamFrom rest max_frames (frame_count + 1)

/-- `stream_frames(source, max_frames)` (`capture.py` lines 13-45) as the
list of pairs the generator yields, starting from `frame_count = 0`.
Opening the capture device is assumed to succeed (an open failure raises
before any pair is yielded and no run happens). -/
def stream_frames (reads : List (Bool × Frame)) (max_frames : ℤ) :
    List (Bool × Frame) :=
  streamFrom reads max_frames 0

/-- `Detection` dataclass (`detect.py` lines 13-18). -/
structure Detection : Type where
  bbox : ℤ × ℤ × ℤ × ℤ
  label : String
  confidence : ℚ
  deriving DecidableEq, Repr

/-- The cv2 drawing primitives used by `draw_detections` and the `f"{...:.2f}"`
confidence formatting; all external to the specified core, taken as opaque
content transformers. -/
structure Cv2Ops : Type where
  rectangle : Frame → ℤ × ℤ → ℤ × ℤ → Frame
  putText : Frame → String → ℤ × ℤ → Frame
  formatConf : ℚ → String

/-- One iteration of the `for det in detections` loop of `draw_detections`
(`detect.py` lines 79-88): draw the box, then the label text at
`(x1, y1 - 10)`. -/
def drawOnto (ops : Cv2Ops) (canvas : Frame) (det : Detection) : Frame :=
  let (x1, y1, x2, y2) := det.bbox
  let label_text := det.label ++ " " ++ ops.formatConf det.confidence
  ops.putText (ops.rectangle canvas (x1, y1) (x2, y2)) label_text (x1, y1 - 10)

/-- `draw_detections` (`detect.py` lines 75-90), content level: the returned
image is `frame.copy()` with every detection drawn onto it in order. -/
def draw_detections (ops : Cv2Ops) (frame : Frame) (detections : List Detection) :
    Frame :=
  detections.foldl (drawOnto ops) frame

/-- A store of image buffers, for stating that the in-place cv2 drawing of
`draw_detections` only ever touches the fresh copy: `content p` is the pixel
data of buffer `p`, and buffers below `next` are the allocated ones. -/
structure ImageHeap : Type where
  content : ℕ → Frame
  next : ℕ

/-- `draw_detections` at the buffer level: `annotated = frame.copy()`
allocates a new buffer, the loop mutates only that buffer, and the buffer is
returned (`detect.py` lines 75-90). -/
def draw_detections_heap (ops : Cv2Ops) (h : ImageHeap) (framePtr : ℕ)
    (detections : List Detection) : ImageHeap × ℕ :=
  let annotated := draw_detections ops (h.content framePtr) detections
  ({ content := Function.update h.content h.next annotated, next := h.next + 1 },
   h.next)

/-- `FruitQualityEvent` dataclass (`publisher.py` lines 10-19). -/
structure FruitQualityEvent : Type where
  timestamp : String
  fruit_type : String
  freshness_level : String
  quality_score : ℚ
  confidence : ℚ
  location : Option String
  camera_id : Option String
  deriving DecidableEq, Repr

/-- `create_quality_event` (`publisher.py` lines 93-110); `now` is the
`datetime.utcnow().isoformat()` string observed at the call. -/
def create_quality_event (now : String) (fruit_type freshness_level : String)
    (quality_score confidence : ℚ) (location camera_id : Option String) :
    FruitQualityEvent :=
  { timestamp := now
    fruit_type := fruit_type
    freshness_level := freshness_level
    quality_score := quality_score
    confidence := confidence
    location := location
    camera_id := camera_id }

/-- `EventPublisher` (`publisher.py` lines 22-70).  `client` is `_client`;
the current source never constructs a real Event Hub client (the code for it
is commented out), so the constructor always stores `none`. -/
structure EventPublisher : Type where
  connection_string : Option String
  event_hub_name : Option String
  client : Option Unit

/-- `EventPublisher.__init__` (`publisher.py` lines 25-42): `_client = None`
unconditionally. -/
def EventPublisher.new (connection_string event_hub_name : Option String) :
    EventPublisher :=
  { connection_string := connection_string
    event_hub_name := event_hub_name
    client := none }

/-- `EventPublisher.publish` (`publisher.py` lines 44-65).  With no client it
logs the event to the console and returns `True`; the configured-transport
branch is an unimplemented TODO that also falls through to `return True`. -/
def EventPublisher.publish (p : EventPublisher) (_event : FruitQualityEvent) :
    Bool :=
  match p.client with
  | none => true
  | some _ => true

/-- `FruitDocument` dataclass (`indexer.py` lines 9-20). -/
structure FruitDocument : Type where
  id : String
  timestamp : String
  fruit_type : String
  freshness_level : String
  quality_score : ℚ
  confidence : ℚ
  location : Option String
  camera_id : Option String
  image_url : Option String
  deriving DecidableEq, Repr

/-- `create_fruit_document` (`indexer.py` lines 116-138); `nowTs` is the
`datetime.utcnow().timestamp()` rendering used in the id, `nowIso` the
`isoformat()` string. -/
def create_fruit_document (nowTs nowIso : String)
    (fruit_type freshness_level : String) (quality_score confidence : ℚ)
    (location camera_id image_url : Option String) : FruitDocument :=
  { id := fruit_type ++ "_" ++ nowTs
    timestamp := nowIso
    fruit_type := fruit_type
    freshness_level := freshness_level
    quality_score := quality_score
    confidence := confidence
    location := location
    camera_id := camera_id
    image_url := image_url }

/-- `SearchRepository` (`indexer.py` lines 23-113).  As with the publisher,
`_client` is never actually constructed by the current source. -/
structure SearchRepository : Type where
  endpoint : Option String
  api_key : Option String
  index_name : String
  client : Option Unit

/-- `SearchRepository.__init__` (`indexer.py` lines 26-53): `_client = None`
unconditionally. -/
def SearchRepository.new (endpoint api_key : Option String)
    (index_name : String) : SearchRepository :=
  { endpoint := endpoint
    api_key := api_key
    index_name := index_name
    client := none }

/-- `SearchRepository.index_document` (`indexer.py` lines 55-74): console
fallback returning `True` when unconfigured; the configured branch is an
unimplemented TODO that also falls through to `return True`. -/
def SearchRepository.index_document (r : SearchRepository)
    (_document : FruitDocument) : Bool :=
  match r.client with
  | none => true
  | some _ => true

/-- `PipelineConfig` dataclass (`orchestrator.py` lines 16-25). -/
structure PipelineConfig : Type where
  source : String
  output_path : Option String
  max_frames : ℤ
  detector_conf : ℚ
  enable_events : Bool
  enable_search : Bool
  display : Bool

/-- The `stats` accumulator of `process_shelf_video`
(`orchestrator.py` lines 53-58). -/
structure RunStats : Type where
  frames_processed : ℕ
  detections : ℕ
  events_published : ℕ
  documents_indexed : ℕ
  deriving DecidableEq, Repr

/-- The external collaborators of one pipeline run, at the exact call sites
where `process_shelf_video` invokes them:
* `detect` — `FruitDetector.detect`, the opaque YOLO model (spec §4.2);
* `analyzeColor`/`analyzeTexture` — the cv2 kernels inside `assess_freshness`;
* `publishOutcome n e` — the result of the n-th
  `asyncio.run(event_publisher.publish(event))` call: `.ok b` when the call
  returns the boolean `b`, `.error ()` when it raises;
* `indexOutcome n d` — likewise for the n-th `search_repo.index_document` call;
* `cv2` — the drawing primitives used by `draw_detections`;
* `key n` — the `cv2.waitKey(1)` return value at the n-th frame iteration
  (an arbitrary integer; `-1` when no key is pressed);
* `now n` / `nowTs n` — the wall-clock strings observed by the n-th
  event/document construction. -/
structure PipelineEnv : Type where
  detect : Frame → List Detection
  analyzeColor : Frame → Option String → ℚ
  analyzeTexture : Frame → ℚ
  publishOutcome : ℕ → FruitQualityEvent → Except Unit Bool
  indexOutcome : ℕ → FruitDocument → Except Unit Bool
  cv2 : Cv2Ops
  key : ℕ → ℤ
  now : ℕ → String
  nowTs : ℕ → String

/-- The mutable state of the frame loop: the statistics dictionary plus the
implicit counters that index the environment (how many publish calls, index
calls and frame iterations have happened so far). -/
structure LoopState : Type where
  stats : RunStats
  pubCalls : ℕ
  idxCalls : ℕ
  iter : ℕ
  deriving DecidableEq, Repr

/-- The `if event_publisher:` block of the per-detection loop
(`orchestrator.py` lines 75-83): build the quality event, call
`asyncio.run(event_publisher.publish(event))`, and increment
`events_published` right after the call, with no check of its boolean
result.  A raised exception propagates. -/
def publishStep (env : PipelineEnv) (cfg : PipelineConfig) (det : Detection)
    (quality : QualityScore) (s : LoopState) : Except Unit LoopState :=
  if cfg.enable_events then
    let event := create_quality_event (env.now s.pubCalls) det.label
      quality.freshness_level.value quality.score det.confidence none none
    match env.publishOutcome s.pubCalls event with
    | .error e => .error e
    | .ok _b =>
      .ok { s with
            stats := { s.stats with
                       events_published := s.stats.events_published + 1 }
            pubCalls := s.pubCalls + 1 }
  else .ok s

/-- The `if search_repo:` block of the per-detection loop
(`orchestrator.py` lines 86-94): build the document, call
`search_repo.index_document(document)`, and increment `documents_indexed`
unconditionally after the call. -/
def indexStep (env : PipelineEnv) (cfg : PipelineConfig) (det : Detection)
    (quality : QualityScore) (s : LoopState) : Except Unit LoopState :=
  if cfg.enable_search then
    let document := create_fruit_document (env.nowTs s.idxCalls)
      (env.now s.idxCalls) det.label quality.freshness_level.value
      quality.score det.confidence none none none
    match env.indexOutcome s.idxCalls document with
    | .error e => .error e
    | .ok _b =>
      .ok { s with
            stats := { s.stats with
                       documents_indexed := s.stats.documents_indexed + 1 }
            idxCalls := s.idxCalls + 1 }
  else .ok s

/-- The body of `for det in detections` (`orchestrator.py` lines 70-94):
assess quality once, then the publish block, then the index block. -/
def processDetection (env : PipelineEnv) (cfg : PipelineConfig) (frame : Frame)
    (s : LoopState) (det : Detection) : Except Unit LoopState :=
  let quality := assess_freshness env.analyzeColor env.analyzeTexture frame
    det.bbox (some det.label)
  match publishStep env cfg det quality s with
  | .error e => .error e
  | .ok s1 => indexStep env cfg det quality s1

/-- The `for det in detections` loop over a whole detection list. -/
def processDetections (env : PipelineEnv) (cfg : PipelineConfig)
    (frame : Frame) : List Detection → LoopState → Except Unit LoopState
  | [], s => .ok s
  | det :: rest, s =>
    match processDetection env cfg frame s det with
    | .error e => .error e
    | .ok s1 => processDetections env cfg frame rest s1

/-- The `for success, frame in stream_frames(...)` loop
(`orchestrator.py` lines 61-107).  Per yielded pair: break on `not success`;
detect; add the detection count; process each detection; annotate the frame;
if `display` is set, show it and break when `waitKey(1) & 0xFF == ord('q')`
(`x & 0xFF` is `x % 256` for Python ints, and `ord('q') = 113`) — the break
fires before `frames_processed` is incremented; otherwise increment
`frames_processed` and continue. -/
def runFrames (env : PipelineEnv) (cfg : PipelineConfig) :
    List (Bool × Frame) → LoopState → Except Unit LoopState
  | [], s => .ok s
  | (success, frame) :: rest, s =>
    if !success then .ok s
    else
      let detections := env.detect frame
      let s0 : LoopState :=
        { s with stats := { s.stats with
                            detections := s.stats.detections + detections.length } }
      match processDetections env cfg frame detections s0 with
      | .error e => .error e
      | .ok s1 =>
        let _annotated := draw_detections env.cv2 frame detections
        if cfg.display && (env.key s1.iter % 256 == 113) then .ok s1
        else
          runFrames env cfg rest
            { s1 with
              stats := { s1.stats with
                         frames_processed := s1.stats.frames_processed + 1 }
              iter := s1.iter + 1 }

/-- `process_shelf_video(config)` (`orchestrator.py` lines 28-114): build the
components, run the frame loop over `stream_frames(config.source,
config.max_frames)`, and return the statistics dictionary.  The `finally`
block (`destroyAllWindows`, `publisher.close()` — a no-op without a client)
does not change the statistics and does not swallow an exception, so a
raised exception propagates as `.error` (the `@timer` and `@log_execution`
wrappers are transparent and re-raise).  `reads` is the underlying capture
device's read behaviour, as in `stream_frames`. -/
def process_shelf_video (env : PipelineEnv) (cfg : PipelineConfig)
    (reads : List (Bool × Frame)) : Except Unit RunStats :=
  let init : LoopState := { stats := ⟨0, 0, 0, 0⟩, pubCalls := 0, idxCalls := 0, iter := 0 }
  match runFrames env cfg (stream_frames reads cfg.max_frames) init with
  | .error e => .error e
  | .ok s => .ok s.stats

/-- A concrete 1×1×3 image used to instantiate the theorems below. -/
def oneFrame : Frame := [[[100, 100, 100]]]

/-- A concrete colour kernel returning 80 on every region. -/
def cA80 : Frame → Option String → ℚ := fun _ _ => 80

/-- A concrete texture kernel returning 50 on every region. -/
def cT50 : Frame → ℚ := fun _ => 50

/-- The frame loop of `process_shelf_video` with the `if not success: break`
branch removed.  It is not part of the source; it exists only to state that
on `stream_frames` output the removed branch can never fire, so the two
loops coincide (claim C9). -/
def runFramesUnchecked (env : PipelineEnv) (cfg : PipelineConfig) :
    List (Bool × Frame) → LoopState → Except Unit LoopState
  | [], s => .ok s
  | (_success, frame) :: rest, s =>
    let detections := env.detect frame
    let s0 : LoopState :=
      { s with stats := { s.stats with
                          detections := s.stats.detections + detections.length } }
    match processDetections env cfg frame detections s0 with
    | .error e => .error e
    | .ok s1 =>
      let _annotated := draw_detections env.cv2 frame detections
      if cfg.display && (env.key s1.iter % 256 == 113) then .ok s1
      else
        runFramesUnchecked env cfg rest
          { s1 with
            stats := { s1.stats with
                       frames_processed := s1.stats.frames_processed + 1 }
            iter := s1.iter + 1 }

/-- Cv2 drawing primitives instantiated with inert transformers, for the
concrete witnesses below. -/
def constCv2 : Cv2Ops :=
  { rectangle := fun f _ _ => f
    putText := fun f _ _ => f
    formatConf := fun _ => "x" }

/-- A one-buffer image store for the C7 witness. -/
def heap0 : ImageHeap := { content := fun _ => oneFrame, next := 1 }

/-- A concrete detection covering the single pixel of `oneFrame`. -/
def detApple : Detection := { bbox := (0, 0, 1, 1), label := "apple", confidence := 9 / 10 }

/-- An environment whose sinks always return without raising but report
failure (`False`) on every publish and every index call. -/
def envPubFalse : PipelineEnv :=
  { detect := fun _ => [detApple]
    analyzeColor := cA80
    analyzeTexture := cT50
    publishOutcome := fun _ _ => Except.ok false
    indexOutcome := fun _ _ => Except.ok false
    cv2 := constCv2
    key := fun _ => -1
    now := fun _ => "t"
    nowTs := fun _ => "s" }

/-- An environment whose publish calls raise. -/
def envPubRaise : PipelineEnv :=
  { envPubFalse with publishOutcome := fun _ _ => Except.error () }

/-- An environment with no detections whose display reports the `q` key on
every poll. -/
def envCancel : PipelineEnv :=
  { envPubFalse with detect := fun _ => [], key := fun _ => 113 }

/-- An environment with no detections and no key press. -/
def envQuiet : PipelineEnv :=
  { envPubFalse with detect := fun _ => [] }

/-- An environment whose sink outcomes are exactly the unconfigured
`EventPublisher` / `SearchRepository` calls the orchestrator makes: the
publisher and repository are built with no credentials, as
`process_shelf_video` builds them. -/
def envUnconfigured : PipelineEnv :=
  { envPubFalse with
    publishOutcome := fun _ e =>
      Except.ok ((EventPublisher.new none none).publish e)
    indexOutcome := fun _ d =>
      Except.ok ((SearchRepository.new none none "fruits-quality").index_document d) }

/-- A configuration with both sinks enabled, no display, no frame cap. -/
def cfgBothSinks : PipelineConfig :=
  { source := "video.mp4"
    output_path := none
    max_frames := 0
    detector_conf := 3 / 10
    enable_events := true
    enable_search := true
    display := false }

/-- A configuration capped at 2 frames with the display window enabled. -/
def cfgDisplayCap2 : PipelineConfig :=
  { cfgBothSinks with max_frames := 2, enable_events := false, enable_search := false, display := true }

/-- A configuration capped at 2 frames without display. -/
def cfgQuietCap2 : PipelineConfig :=
  { cfgDisplayCap2 with display := false }

/-- Two successful reads of the concrete frame. -/
def reads2 : List (Bool × Frame) := [(true, oneFrame), (true, oneFrame)]

/-- On a region with at least one pixel, `assess_freshness` takes the
non-degenerate branch of `score.py` lines 59-82. -/
lemma assess_freshness_pos_eq (cA : Frame → Option String → ℚ)
    (cT : Frame → ℚ) (frame : Frame) (x1 y1 x2 y2 : ℤ) (ft : Option String)
    (hpos : roiSize (extractRoi frame y1 y2 x1 x2) ≠ 0) :
    assess_freshness cA cT frame (x1, y1, x2, y2) ft =
      { freshness_level :=
          if cA (extractRoi frame y1 y2 x1 x2) ft * (6 / 10) +
              cT (extractRoi frame y1 y2 x1 x2) * (4 / 10) ≥ 70 then
            FreshnessLevel.fresh
          else if cA (extractRoi frame y1 y2 x1 x2) ft * (6 / 10) +
              cT (extractRoi frame y1 y2 x1 x2) * (4 / 10) ≥ 40 then
            FreshnessLevel.medium
          else FreshnessLevel.rotten
        score := cA (extractRoi frame y1 y2 x1 x2) ft * (6 / 10) +
          cT (extractRoi frame y1 y2 x1 x2) * (4 / 10)
        color_score := cA (extractRoi frame y1 y2 x1 x2) ft
        texture_score := cT (extractRoi frame y1 y2 x1 x2)
        confidence := 3 / 4 } := by
  simp [assess_freshness, hpos]

/-- Claim C2: for every frame and every bbox whose region has positive area,
`assess_freshness` returns a score equal to
`0.6 * color_score + 0.4 * texture_score`, and the freshness level is the
step function of the score with inclusive lower bounds: `score ≥ 70` gives
Fresh, `40 ≤ score < 70` gives Medium, `score < 40` gives Rotten. -/
theorem assess_freshness_positive_area_spec (cA : Frame → Option String → ℚ)
    (cT : Frame → ℚ) (frame : Frame) (x1 y1 x2 y2 : ℤ) (ft : Option String)
    (hpos : roiSize (extractRoi frame y1 y2 x1 x2) ≠ 0) :
    (assess_freshness cA cT frame (x1, y1, x2, y2) ft).score =
      6 / 10 * (assess_freshness cA cT frame (x1, y1, x2, y2) ft).color_score +
      4 / 10 * (assess_freshness cA cT frame (x1, y1, x2, y2) ft).texture_score ∧
    (70 ≤ (assess_freshness cA cT frame (x1, y1, x2, y2) ft).score →
      (assess_freshness cA cT frame (x1, y1, x2, y2) ft).freshness_level =
        FreshnessLevel.fresh) ∧
    (40 ≤ (assess_freshness cA cT frame (x1, y1, x2, y2) ft).score ∧
        (assess_freshness cA cT frame (x1, y1, x2, y2) ft).score < 70 →
      (assess_freshness cA cT frame (x1, y1, x2, y2) ft).freshness_level =
        FreshnessLevel.medium) ∧
    ((assess_freshness cA cT frame (x1, y1, x2, y2) ft).score < 40 →
      (assess_freshness cA cT frame (x1, y1, x2, y2) ft).freshness_level =
        FreshnessLevel.rotten) := by
  rw [assess_freshness_pos_eq cA cT frame x1 y1 x2 y2 ft hpos]
  refine ⟨by ring, ?_, ?_, ?_⟩ <;> intro h <;> split_ifs <;>
    first
      | rfl
      | (exfalso; rcases h with ⟨ha, hb⟩ <;> linarith)
      | (exfalso; linarith)

/-- Witness for C2 at a concrete frame, bbox and pair of analysis kernels:
the region `oneFrame[0:1, 0:1]` has 3 scalar entries, the kernels give
colour 80 and texture 50, so the score is 68 and the level Medium. -/
theorem assess_freshness_positive_area_spec_witness :
    (assess_freshness cA80 cT50 oneFrame (0, 0, 1, 1) none).score =
      6 / 10 * (assess_freshness cA80 cT50 oneFrame (0, 0, 1, 1) none).color_score +
      4 / 10 * (assess_freshness cA80 cT50 oneFrame (0, 0, 1, 1) none).texture_score ∧
    (70 ≤ (assess_freshness cA80 cT50 oneFrame (0, 0, 1, 1) none).score →
      (assess_freshness cA80 cT50 oneFrame (0, 0, 1, 1) none).freshness_level =
        FreshnessLevel.fresh) ∧
    (40 ≤ (assess_freshness cA80 cT50 oneFrame (0, 0, 1, 1) none).score ∧
        (assess_freshness cA80 cT50 oneFrame (0, 0, 1, 1) none).score < 70 →
      (assess_freshness cA80 cT50 oneFrame (0, 0, 1, 1) none).freshness_level =
        FreshnessLevel.medium) ∧
    ((assess_freshness cA80 cT50 oneFrame (0, 0, 1, 1) none).score < 40 →
      (assess_freshness cA80 cT50 oneFrame (0, 0, 1, 1) none).freshness_level =
        FreshnessLevel.rotten) :=
  assess_freshness_positive_area_spec cA80 cT50 oneFrame 0 0 1 1 none (by decide)

/-- Claim C4: for every frame and every bbox whose region has zero area,
`assess_freshness` returns exactly the fixed default
`{score := 50, level := Medium, confidence := 0}` (with component scores 50),
independently of the frame's content; being a total function of its inputs,
it never raises. -/
theorem assess_freshness_zero_area_default (cA : Frame → Option String → ℚ)
    (cT : Frame → ℚ) (frame : Frame) (x1 y1 x2 y2 : ℤ) (ft : Option String)
    (hz : roiSize (extractRoi frame y1 y2 x1 x2) = 0) :
    assess_freshness cA cT frame (x1, y1, x2, y2) ft =
      { freshness_level := FreshnessLevel.medium
        score := 50
        color_score := 50
        texture_score := 50
        confidence := 0 } := by
  simp [assess_freshness, hz, default_score]

/-- Witness for C4 at the zero-size bbox `(100, 100, 100, 100)` used by the
repository's own test `test_assess_freshness_empty_bbox`. -/
theorem assess_freshness_zero_area_default_witness :
    assess_freshness cA80 cT50 oneFrame (100, 100, 100, 100) none =
      { freshness_level := FreshnessLevel.medium
        score := 50
        color_score := 50
        texture_score := 50
        confidence := 0 } :=
  assess_freshness_zero_area_default cA80 cT50 oneFrame 100 100 100 100 none
    (by decide)

/-- Claim C8: on every return path of `assess_freshness` — the analysed one
and the zero-area default — the returned record satisfies
`score = 0.6 * color_score + 0.4 * texture_score` (the default has component
scores 50, so its score 50 satisfies the equation too). -/
theorem quality_score_weighted_sum_invariant (cA : Frame → Option String → ℚ)
    (cT : Frame → ℚ) (frame : Frame) (bbox : ℤ × ℤ × ℤ × ℤ)
    (ft : Option String) :
    (assess_freshness cA cT frame bbox ft).score =
      6 / 10 * (assess_freshness cA cT frame bbox ft).color_score +
      4 / 10 * (assess_freshness cA cT frame bbox ft).texture_score := by
  obtain ⟨x1, y1, x2, y2⟩ := bbox
  by_cases hz : roiSize (extractRoi frame y1 y2 x1 x2) = 0
  · rw [assess_freshness_zero_area_default cA cT frame x1 y1 x2 y2 ft hz]
    norm_num
  · rw [assess_freshness_pos_eq cA cT frame x1 y1 x2 y2 ft hz]
    ring

/-- Claim C10: `retry` with `max_attempts ≤ 0` has an empty `range`, so the
wrapper performs zero invocations of the wrapped operation and falls through
to the trailing `return None`. -/
theorem retryRun_nonpositive_attempts {ε α : Type} (max_attempts : ℤ)
    (op : ℕ → Except ε α) (h : max_attempts ≤ 0) :
    retryRun max_attempts op = (Except.ok none, 0) := by
  unfold retryRun
  rw [Int.toNat_of_nonpos h]
  rfl

/-- Witness for C10 at `max_attempts = 0` on an operation that would
succeed if it were ever invoked. -/
theorem retryRun_nonpositive_attempts_witness :
    retryRun 0 (fun _ => (Except.ok 1 : Except ℕ ℕ)) = (Except.ok none, 0) :=
  retryRun_nonpositive_attempts 0 (fun _ => Except.ok 1) (by decide)

/-- If the operation fails for `k` further attempts, none of which is the
last one, and then succeeds, the retry loop returns that success after
`k + 1` further invocations. -/
lemma retryFrom_eventual {ε α : Type} (op : ℕ → Except ε α) (m : ℤ) (a : α) :
    ∀ (k attempt remaining : ℕ),
      (∀ i, i < k → isErr (op (attempt + i)) = true) →
      (∀ i, i < k → (attempt + i : ℤ) ≠ m - 1) →
      op (attempt + k) = Except.ok a →
      k < remaining →
      retryFrom op m attempt remaining = (Except.ok (some a), k + 1) := by
  intro k
  induction k with
  | zero =>
    intro attempt remaining _hf _hne hsucc hlt
    obtain ⟨r, rfl⟩ : ∃ r, remaining = r + 1 := ⟨remaining - 1, by omega⟩
    simp only [Nat.add_zero] at hsucc
    simp [retryFrom, hsucc]
  | succ k ih =>
    intro attempt remaining hf hne hsucc hlt
    obtain ⟨r, rfl⟩ : ∃ r, remaining = r + 1 := ⟨remaining - 1, by omega⟩
    have h0 : isErr (op attempt) = true := by
      have := hf 0 (by omega); simpa using this
    obtain ⟨e, he⟩ : ∃ e, op attempt = Except.error e := by
      cases hop : op attempt with
      | ok b => rw [hop] at h0; simp [isErr] at h0
      | error e => exact ⟨e, rfl⟩
    have hne0 : ¬((attempt : ℤ) = m - 1) := by
      have := hne 0 (by omega); simpa using this
    have hrec := ih (attempt + 1) r
      (fun i hi => by
        have := hf (i + 1) (by omega)
        rwa [show attempt + (i + 1) = attempt + 1 + i by omega] at this)
      (fun i hi => by
        have := hne (i + 1) (by omega)
        push_cast at this ⊢
        omega)
      (by rwa [show attempt + (k + 1) = attempt + 1 + k by omega] at hsucc)
      (by omega)
    have hstep : retryFrom op m attempt (r + 1) =
        ((retryFrom op m (attempt + 1) r).1,
         (retryFrom op m (attempt + 1) r).2 + 1) := by
      simp [retryFrom, he, hne0]
    rw [hstep, hrec]

/-- If the operation fails on every remaining attempt and the remaining
count matches `range(max_attempts)`, the loop re-raises the error of the
last attempt after performing all of them. -/
lemma retryFrom_allfail {ε α : Type} (op : ℕ → Except ε α) (m : ℤ) :
    ∀ (remaining attempt : ℕ),
      0 < remaining →
      (attempt : ℤ) + remaining = m →
      (∀ i, i < remaining → isErr (op (attempt + i)) = true) →
      ∃ e, op (attempt + (remaining - 1)) = Except.error e ∧
        retryFrom op m attempt remaining = (Except.error e, remaining) := by
  intro remaining
  induction remaining with
  | zero => intro attempt h0; omega
  | succ r ih =>
    intro attempt _h0 hsum hf
    have h0 : isErr (op attempt) = true := by
      have := hf 0 (by omega); simpa using this
    obtain ⟨e0, he0⟩ : ∃ e, op attempt = Except.error e := by
      cases hop : op attempt with
      | ok b => rw [hop] at h0; simp [isErr] at h0
      | error e => exact ⟨e, rfl⟩
    rcases Nat.eq_zero_or_pos r with hr | hr
    · subst hr
      refine ⟨e0, by simpa using he0, ?_⟩
      have hlast : (attempt : ℤ) = m - 1 := by push_cast at hsum; omega
      simp [retryFrom, he0, hlast]
    · have hnotlast : ¬((attempt : ℤ) = m - 1) := by push_cast at hsum; omega
      obtain ⟨e, he, heq⟩ := ih (attempt + 1) hr
        (by push_cast at hsum ⊢; omega)
        (fun i hi => by
          have := hf (i + 1) (by omega)
          rwa [show attempt + (i + 1) = attempt + 1 + i by omega] at this)
      have hstep : retryFrom op m attempt (r + 1) =
          ((retryFrom op m (attempt + 1) r).1,
           (retryFrom op m (attempt + 1) r).2 + 1) := by
        simp [retryFrom, he0, hnotlast]
      refine ⟨e, ?_, ?_⟩
      · rwa [show attempt + (r + 1 - 1) = attempt + 1 + (r - 1) by omega]
      · rw [hstep, heq]

/-- Claim C5: for `retry(max_attempts, delay)` with `max_attempts ≥ 1`:
if the wrapped operation fails on its first `k < max_attempts` invocations
and then succeeds, the wrapper returns the success value after exactly
`k + 1` invocations; if it fails on all `max_attempts` invocations, the
wrapper re-raises the exception of the final invocation unchanged, after
exactly `max_attempts` invocations. -/
theorem retryRun_spec {ε α : Type} (max_attempts : ℤ)
    (op opF : ℕ → Except ε α) (k : ℕ) (a : α)
    (h1 : 1 ≤ max_attempts)
    (hk : (k : ℤ) < max_attempts)
    (hfail : ∀ i, i < k → isErr (op i) = true)
    (hsucc : op k = Except.ok a)
    (hallfail : ∀ i, i < max_attempts.toNat → isErr (opF i) = true) :
    retryRun max_attempts op = (Except.ok (some a), k + 1) ∧
    ∃ e, opF (max_attempts.toNat - 1) = Except.error e ∧
      retryRun max_attempts opF = (Except.error e, max_attempts.toNat) := by
  constructor
  · exact retryFrom_eventual op max_attempts a k 0 max_attempts.toNat
      (fun i hi => by simpa using hfail i hi)
      (fun i hi => by push_cast; omega)
      (by simpa using hsucc)
      (by omega)
  · obtain ⟨e, he, heq⟩ := retryFrom_allfail opF max_attempts max_attempts.toNat 0
      (by omega) (by push_cast; omega)
      (fun i hi => by simpa using hallfail i hi)
    exact ⟨e, by simpa using he, heq⟩

/-- Witness for C5 with `max_attempts = 3`: an operation failing twice then
returning 42 yields the value after 3 invocations, and an operation failing
on all attempts re-raises its error 5 after 3 invocations. -/
theorem retryRun_spec_witness :
    retryRun 3 (fun i => if i < 2 then Except.error (7 : ℕ) else Except.ok (42 : ℕ))
        = (Except.ok (some 42), 2 + 1) ∧
    ∃ e, (fun _ : ℕ => (Except.error (5 : ℕ) : Except ℕ ℕ)) (Int.toNat 3 - 1)
        = Except.error e ∧
      retryRun 3 (fun _ : ℕ => (Except.error (5 : ℕ) : Except ℕ ℕ))
        = (Except.error e, Int.toNat 3) :=
  retryRun_spec 3 (fun i => if i < 2 then Except.error 7 else Except.ok 42)
    (fun _ => Except.error 5) 2 42 (by decide) (by decide) (by decide) (by decide)
    (by decide)

/-- Every pair in the tail of the capture loop starting at any counter value
has a true first component: a failed `cap.read()` breaks before yielding. -/
lemma streamFrom_all_success (m : ℤ) :
    ∀ (reads : List (Bool × Frame)) (c : ℕ) (p : Bool × Frame),
      p ∈ streamFrom reads m c → p.1 = true := by
  intro reads
  induction reads with
  | nil => intro c p hp; simp [streamFrom] at hp
  | cons head rest ih =>
    intro c p hp
    obtain ⟨ret, frame⟩ := head
    simp only [streamFrom] at hp
    split_ifs at hp with hcap hret
    · simp at hp
    · simp at hp
    · rcases List.mem_cons.mp hp with hhead | htail
      · subst hhead; simpa using hret
      · exact ih (c + 1) p htail

/-- On a pair list whose first components are all true, the success check of
the frame loop is dead code. -/
lemma runFrames_eq_unchecked (env : PipelineEnv) (cfg : PipelineConfig) :
    ∀ (pairs : List (Bool × Frame)),
      (∀ p ∈ pairs, p.1 = true) →
      ∀ s, runFrames env cfg pairs s = runFramesUnchecked env cfg pairs s := by
  intro pairs
  induction pairs with
  | nil => intro _ s; rfl
  | cons head rest ih =>
    intro hall s
    obtain ⟨success, frame⟩ := head
    have hs : success = true := hall (success, frame) (List.mem_cons_self _ _)
    subst hs
    simp only [runFrames, runFramesUnchecked, Bool.not_true, Bool.false_eq_true,
      if_false]
    cases hpd : processDetections env cfg frame (env.detect frame)
        { s with stats := { s.stats with
            detections := s.stats.detections + (env.detect frame).length } } with
    | error e => rfl
    | ok s1 =>
      by_cases hq : cfg.display && (env.key s1.iter % 256 == 113)
      · simp [hq]
      · simp only [hq, if_false]
        exact ih (fun p hp => hall p (List.mem_cons_of_mem _ hp)) _

/-- Claim C9: every `(success, frame)` pair yielded by `stream_frames` has
`success = true` (a failed read terminates the generator without yielding
the failed pair), and consequently the orchestrator's `if not success`
branch is unreachable: the frame loop behaves identically with that branch
removed. -/
theorem stream_frames_yields_only_success (reads : List (Bool × Frame))
    (m : ℤ) :
    (∀ p ∈ stream_frames reads m, p.1 = true) ∧
    (∀ (env : PipelineEnv) (cfg : PipelineConfig) (s : LoopState),
      runFrames env cfg (stream_frames reads m) s =
        runFramesUnchecked env cfg (stream_frames reads m) s) := by
  have hall : ∀ p ∈ stream_frames reads m, p.1 = true :=
    fun p hp => streamFrom_all_success m reads 0 p hp
  exact ⟨hall, fun env cfg s => runFrames_eq_unchecked env cfg _ hall s⟩

/-- Witness for C9: in the concrete stream over one good read followed by a
failed read, the yielded pair is marked successful. -/
theorem stream_frames_yields_only_success_witness :
    ((true, oneFrame) : Bool × Frame).1 = true :=
  (stream_frames_yields_only_success [(true, oneFrame), (false, oneFrame)] 0).1
    (true, oneFrame) (by decide)

/-- Claim C7: `draw_detections` never mutates its input buffer — after the
call, every previously allocated image (in particular the input frame) holds
its old content — and on the empty detection list the freshly returned
buffer's content equals the input frame's content (a pure copy). -/
theorem draw_detections_pure (ops : Cv2Ops) (h : ImageHeap) (framePtr : ℕ)
    (dets : List Detection) (hf : framePtr < h.next) :
    (draw_detections_heap ops h framePtr dets).1.content framePtr =
      h.content framePtr ∧
    (dets = [] →
      (draw_detections_heap ops h framePtr dets).1.content
        (draw_detections_heap ops h framePtr dets).2 = h.content framePtr) := by
  constructor
  · simp [draw_detections_heap, Function.update_noteq (Nat.ne_of_lt hf)]
  · intro hd
    subst hd
    simp [draw_detections_heap, draw_detections]

/-- Witness for C7 on the concrete one-buffer store and the empty detection
list. -/
theorem draw_detections_pure_witness :
    (draw_detections_heap constCv2 heap0 0 []).1.content 0 = heap0.content 0 ∧
    (([] : List Detection) = [] →
      (draw_detections_heap constCv2 heap0 0 []).1.content
        (draw_detections_heap constCv2 heap0 0 []).2 = heap0.content 0) :=
  draw_detections_pure constCv2 heap0 0 [] (by decide)

/-- Bookkeeping of one publish block: only `events_published` and the
publish-call counter can change, and `events_published` grows by exactly one
per call when the publisher exists. -/
lemma publishStep_ok (env : PipelineEnv) (cfg : PipelineConfig)
    (det : Detection) (q : QualityScore) (s s' : LoopState)
    (h : publishStep env cfg det q s = Except.ok s') :
    s'.stats.detections = s.stats.detections ∧
    s'.stats.frames_processed = s.stats.frames_processed ∧
    s'.stats.documents_indexed = s.stats.documents_indexed ∧
    s'.iter = s.iter ∧
    (cfg.enable_events = true →
      s'.stats.events_published = s.stats.events_published + 1) ∧
    (cfg.enable_events = false →
      s'.stats.events_published = s.stats.events_published) := by
  simp only [publishStep] at h
  split at h
  · split at h
    · exact absurd h (by simp)
    · simp only [Except.ok.injEq] at h
      subst h
      refine ⟨rfl, rfl, rfl, rfl, fun _ => rfl, fun hf => ?_⟩
      simp_all
  · simp only [Except.ok.injEq] at h
    subst h
    refine ⟨rfl, rfl, rfl, rfl, fun ht => ?_, fun _ => rfl⟩
    simp_all

/-- Bookkeeping of one index block: only `documents_indexed` and the
index-call counter can change, and `documents_indexed` grows by exactly one
per call when the repository exists. -/
lemma indexStep_ok (env : PipelineEnv) (cfg : PipelineConfig)
    (det : Detection) (q : QualityScore) (s s' : LoopState)
    (h : indexStep env cfg det q s = Except.ok s') :
    s'.stats.detections = s.stats.detections ∧
    s'.stats.frames_processed = s.stats.frames_processed ∧
    s'.stats.events_published = s.stats.events_published ∧
    s'.iter = s.iter ∧
    (cfg.enable_search = true →
      s'.stats.documents_indexed = s.stats.documents_indexed + 1) ∧
    (cfg.enable_search = false →
      s'.stats.documents_indexed = s.stats.documents_indexed) := by
  simp only [indexStep] at h
  split at h
  · split at h
    · exact absurd h (by simp)
    · simp only [Except.ok.injEq] at h
      subst h
      refine ⟨rfl, rfl, rfl, rfl, fun _ => rfl, fun hf => ?_⟩
      simp_all
  · simp only [Except.ok.injEq] at h
    subst h
    refine ⟨rfl, rfl, rfl, rfl, fun ht => ?_, fun _ => rfl⟩
    simp_all

/-- Bookkeeping of one full detection: each enabled sink's counter grows by
exactly one, independently of the booleans the sinks report. -/
lemma processDetection_ok (env : PipelineEnv) (cfg : PipelineConfig)
    (frame : Frame) (s : LoopState) (det : Detection) (s' : LoopState)
    (h : processDetection env cfg frame s det = Except.ok s') :
    s'.stats.detections = s.stats.detections ∧
    s'.stats.frames_processed = s.stats.frames_processed ∧
    s'.iter = s.iter ∧
    (cfg.enable_events = true →
      s'.stats.events_published = s.stats.events_published + 1) ∧
    (cfg.enable_events = false →
      s'.stats.events_published = s.stats.events_published) ∧
    (cfg.enable_search = true →
      s'.stats.documents_indexed = s.stats.documents_indexed + 1) ∧
    (cfg.enable_search = false →
      s'.stats.documents_indexed = s.stats.documents_indexed) := by
  simp only [processDetection] at h
  split at h
  · exact absurd h (by simp)
  · rename_i s1 heq
    obtain ⟨pd, pf, pdi, pit, pevt, pevf⟩ := publishStep_ok env cfg det _ s s1 heq
    obtain ⟨qd, qf, qep, qit, qdit, qdif⟩ := indexStep_ok env cfg det _ s1 s' h
    refine ⟨qd.trans pd, qf.trans pf, qit.trans pit, ?_, ?_, ?_, ?_⟩
    · intro hv; rw [qep, pevt hv]
    · intro hv; rw [qep, pevf hv]
    · intro hs; rw [qdit hs, pdi]
    · intro hs; rw [qdif hs, pdi]

/-- Bookkeeping of the per-detection loop over a whole list: each enabled
sink's counter grows by exactly the number of detections. -/
lemma processDetections_ok (env : PipelineEnv) (cfg : PipelineConfig)
    (frame : Frame) :
    ∀ (dets : List Detection) (s s' : LoopState),
      processDetections env cfg frame dets s = Except.ok s' →
      s'.stats.detections = s.stats.detections ∧
      s'.stats.frames_processed = s.stats.frames_processed ∧
      s'.iter = s.iter ∧
      (cfg.enable_events = true →
        s'.stats.events_published = s.stats.events_published + dets.length) ∧
      (cfg.enable_events = false →
        s'.stats.events_published = s.stats.events_published) ∧
      (cfg.enable_search = true →
        s'.stats.documents_indexed = s.stats.documents_indexed + dets.length) ∧
      (cfg.enable_search = false →
        s'.stats.documents_indexed = s.stats.documents_indexed) := by
  intro dets
  induction dets with
  | nil =>
    intro s s' h
    simp only [processDetections, Except.ok.injEq] at h
    subst h
    simp
  | cons det rest ih =>
    intro s s' h
    simp only [processDetections] at h
    split at h
    · exact absurd h (by simp)
    · rename_i s1 heq
      obtain ⟨pd, pf, pit, pevt, pevf, pdit, pdif⟩ :=
        processDetection_ok env cfg frame s det s1 heq
      obtain ⟨rd, rf, rit, revt, revf, rdit, rdif⟩ := ih s1 s' h
      refine ⟨rd.trans pd, rf.trans pf, rit.trans pit,
        fun hv => ?_, fun hv => ?_, fun hs => ?_, fun hs => ?_⟩
      · have h1 := pevt hv; have h2 := revt hv
        simp only [List.length_cons]; omega
      · rw [revf hv, pevf hv]
      · have h1 := pdit hs; have h2 := rdit hs
        simp only [List.length_cons]; omega
      · rw [rdif hs, pdif hs]

/-- Bookkeeping of the frame loop: however it exits without raising, each
enabled sink's counter has grown exactly as much as the detections counter. -/
lemma runFrames_counts (env : PipelineEnv) (cfg : PipelineConfig) :
    ∀ (pairs : List (Bool × Frame)) (s s' : LoopState),
      runFrames env cfg pairs s = Except.ok s' →
      (cfg.enable_events = true →
        s'.stats.events_published + s.stats.detections =
          s.stats.events_published + s'.stats.detections) ∧
      (cfg.enable_search = true →
        s'.stats.documents_indexed + s.stats.detections =
          s.stats.documents_indexed + s'.stats.detections) := by
  intro pairs
  induction pairs with
  | nil =>
    intro s s' h
    simp only [runFrames, Except.ok.injEq] at h
    subst h
    simp
  | cons head rest ih =>
    intro s s' h
    obtain ⟨success, frame⟩ := head
    simp only [runFrames] at h
    split at h
    · simp only [Except.ok.injEq] at h
      subst h
      simp
    · split at h
      · exact absurd h (by simp)
      · rename_i s1 heq
        obtain ⟨pd, pf, pit, pevt, pevf, pdit, pdif⟩ :=
          processDetections_ok env cfg frame (env.detect frame) _ s1 heq
        split at h
        · simp only [Except.ok.injEq] at h
          subst h
          refine ⟨fun hv => ?_, fun hs => ?_⟩
          · have h1 := pevt hv
            have hd : s1.stats.detections =
                s.stats.detections + (env.detect frame).length := pd
            have he : s1.stats.events_published =
                s.stats.events_published + (env.detect frame).length := h1
            omega
          · have h1 := pdit hs
            have hd : s1.stats.detections =
                s.stats.detections + (env.detect frame).length := pd
            have he : s1.stats.documents_indexed =
                s.stats.documents_indexed + (env.detect frame).length := h1
            omega
        · obtain ⟨re, rs⟩ := ih _ s' h
          refine ⟨fun hv => ?_, fun hs => ?_⟩
          · have h1 := pevt hv
            have h2 := re hv
            have hd : s1.stats.detections =
                s.stats.detections + (env.detect frame).length := pd
            have he : s1.stats.events_published =
                s.stats.events_published + (env.detect frame).length := h1
            have h2x : s'.stats.events_published +
                s1.stats.detections =
                s1.stats.events_published + s'.stats.detections := h2
            omega
          · have h1 := pdit hs
            have h2 := rs hs
            have hd : s1.stats.detections =
                s.stats.detections + (env.detect frame).length := pd
            have he : s1.stats.documents_indexed =
                s.stats.documents_indexed + (env.detect frame).length := h1
            have h2x : s'.stats.documents_indexed +
                s1.stats.detections =
                s1.stats.documents_indexed + s'.stats.detections := h2
            omega

/-- Bookkeeping of `frames_processed` over a list of successful pairs: the
loop processes every pair unless the display key poll reports `q`. -/
lemma runFrames_fp (env : PipelineEnv) (cfg : PipelineConfig) :
    ∀ (pairs : List (Bool × Frame)),
      (∀ p ∈ pairs, p.1 = true) →
      ∀ (s s' : LoopState),
        runFrames env cfg pairs s = Except.ok s' →
        s'.stats.frames_processed ≤ s.stats.frames_processed + pairs.length ∧
        (s'.stats.frames_processed = s.stats.frames_processed + pairs.length ∨
          (cfg.display = true ∧ ∃ i : ℕ, env.key i % 256 = 113)) := by
  intro pairs
  induction pairs with
  | nil =>
    intro _ s s' h
    simp only [runFrames, Except.ok.injEq] at h
    subst h
    simp
  | cons head rest ih =>
    intro hall s s' h
    obtain ⟨success, frame⟩ := head
    have hs : success = true := hall (success, frame) (List.mem_cons_self _ _)
    subst hs
    simp only [runFrames, Bool.not_true, Bool.false_eq_true, if_false] at h
    split at h
    · exact absurd h (by simp)
    · rename_i s1 heq
      obtain ⟨pd, pf, pit, _, _, _, _⟩ :=
        processDetections_ok env cfg frame (env.detect frame) _ s1 heq
      have hf1 : s1.stats.frames_processed = s.stats.frames_processed := pf
      split at h
      · rename_i hq
        simp only [Except.ok.injEq] at h
        subst h
        rw [Bool.and_eq_true] at hq
        refine ⟨by simp only [List.length_cons]; omega,
          Or.inr ⟨hq.1, ⟨s1.iter, ?_⟩⟩⟩
        exact eq_of_beq hq.2
      · obtain ⟨rle, rdisj⟩ := ih
          (fun p hp => hall p (List.mem_cons_of_mem _ hp)) _ s' h
        have h2 : s'.stats.frames_processed ≤
            (s1.stats.frames_processed + 1) + rest.length := rle
        refine ⟨by simp only [List.length_cons]; omega, ?_⟩
        rcases rdisj with heqf | hc
        · left
          have h3 : s'.stats.frames_processed =
              (s1.stats.frames_processed + 1) + rest.length := heqf
          simp only [List.length_cons]
          omega
        · exact Or.inr hc

/-- The number of pairs yielded by the capped capture loop: the cap's
remaining budget against the number of immediately successful reads. -/
lemma streamFrom_length (m : ℤ) (hm : 0 < m) :
    ∀ (reads : List (Bool × Frame)) (c : ℕ),
      (streamFrom reads m c).length =
        min (m.toNat - c) (reads.takeWhile (fun p => p.1)).length := by
  intro reads
  induction reads with
  | nil => intro c; simp [streamFrom]
  | cons head rest ih =>
    intro c
    obtain ⟨ret, frame⟩ := head
    by_cases hcap : 0 < m ∧ m ≤ (c : ℤ)
    · have h1 : streamFrom ((ret, frame) :: rest) m c = [] := by
        simp [streamFrom, hcap]
      rw [h1]
      simp only [List.length_nil]
      omega
    · cases hret : ret
      · have h1 : streamFrom ((false, frame) :: rest) m c = [] := by
          simp [streamFrom, hcap]
        rw [h1]
        simp only [List.length_nil, List.takeWhile_cons]
        simp
      · have h1 : streamFrom ((true, frame) :: rest) m c =
            (true, frame) :: streamFrom rest m (c + 1) := by
          simp [streamFrom, hcap]
        rw [h1]
        simp only [List.length_cons, List.takeWhile_cons]
        simp only [if_true]
        rw [ih (c + 1)]
        simp only [List.length_cons]
        omega

/-- If publish calls never raise, the publish block never raises. -/
lemma publishStep_total (env : PipelineEnv) (cfg : PipelineConfig)
    (det : Detection) (q : QualityScore) (s : LoopState)
    (hp : ∀ n e, isErr (env.publishOutcome n e) = false) :
    ∃ s1, publishStep env cfg det q s = Except.ok s1 := by
  cases hev : cfg.enable_events
  · exact ⟨s, by simp [publishStep, hev]⟩
  · obtain ⟨b, hb⟩ : ∃ b, env.publishOutcome s.pubCalls
        (create_quality_event (env.now s.pubCalls) det.label
          q.freshness_level.value q.score det.confidence none none) =
        Except.ok b := by
      cases hx : env.publishOutcome s.pubCalls
          (create_quality_event (env.now s.pubCalls) det.label
            q.freshness_level.value q.score det.confidence none none) with
      | ok b => exact ⟨b, rfl⟩
      | error u =>
        have hc := hp s.pubCalls
          (create_quality_event (env.now s.pubCalls) det.label
            q.freshness_level.value q.score det.confidence none none)
        rw [hx] at hc
        simp [isErr] at hc
    exact ⟨{ s with
             stats := { s.stats with
                        events_published := s.stats.events_published + 1 }
             pubCalls := s.pubCalls + 1 },
      by simp [publishStep, hev, hb]⟩

/-- If index calls never raise, the index block never raises. -/
lemma indexStep_total (env : PipelineEnv) (cfg : PipelineConfig)
    (det : Detection) (q : QualityScore) (s : LoopState)
    (hi : ∀ n d, isErr (env.indexOutcome n d) = false) :
    ∃ s1, indexStep env cfg det q s = Except.ok s1 := by
  cases hse : cfg.enable_search
  · exact ⟨s, by simp [indexStep, hse]⟩
  · obtain ⟨b, hb⟩ : ∃ b, env.indexOutcome s.idxCalls
        (create_fruit_document (env.nowTs s.idxCalls) (env.now s.idxCalls)
          det.label q.freshness_level.value q.score det.confidence
          none none none) =
        Except.ok b := by
      cases hx : env.indexOutcome s.idxCalls
          (create_fruit_document (env.nowTs s.idxCalls) (env.now s.idxCalls)
            det.label q.freshness_level.value q.score det.confidence
            none none none) with
      | ok b => exact ⟨b, rfl⟩
      | error u =>
        have hc := hi s.idxCalls
          (create_fruit_document (env.nowTs s.idxCalls) (env.now s.idxCalls)
            det.label q.freshness_level.value q.score det.confidence
            none none none)
        rw [hx] at hc
        simp [isErr] at hc
    exact ⟨{ s with
             stats := { s.stats with
                        documents_indexed := s.stats.documents_indexed + 1 }
             idxCalls := s.idxCalls + 1 },
      by simp [indexStep, hse, hb]⟩

/-- If neither sink's calls raise, one detection never raises. -/
lemma processDetection_total (env : PipelineEnv) (cfg : PipelineConfig)
    (frame : Frame) (s : LoopState) (det : Detection)
    (hp : ∀ n e, isErr (env.publishOutcome n e) = false)
    (hi : ∀ n d, isErr (env.indexOutcome n d) = false) :
    ∃ s2, processDetection env cfg frame s det = Except.ok s2 := by
  obtain ⟨s1, h1⟩ := publishStep_total env cfg det
    (assess_freshness env.analyzeColor env.analyzeTexture frame det.bbox
      (some det.label)) s hp
  obtain ⟨s2, h2⟩ := indexStep_total env cfg det
    (assess_freshness env.analyzeColor env.analyzeTexture frame det.bbox
      (some det.label)) s1 hi
  refine ⟨s2, ?_⟩
  simp only [processDetection]
  rw [h1]
  exact h2

/-- If neither sink's calls raise, the per-detection loop never raises. -/
lemma processDetections_total (env : PipelineEnv) (cfg : PipelineConfig)
    (frame : Frame)
    (hp : ∀ n e, isErr (env.publishOutcome n e) = false)
    (hi : ∀ n d, isErr (env.indexOutcome n d) = false) :
    ∀ (dets : List Detection) (s : LoopState),
      ∃ s', processDetections env cfg frame dets s = Except.ok s' := by
  intro dets
  induction dets with
  | nil => intro s; exact ⟨s, rfl⟩
  | cons det rest ih =>
    intro s
    obtain ⟨s1, h1⟩ := processDetection_total env cfg frame s det hp hi
    obtain ⟨s', h'⟩ := ih s1
    refine ⟨s', ?_⟩
    simp only [processDetections]
    rw [h1]
    exact h'

/-- If neither sink's calls raise, the frame loop never raises. -/
lemma runFrames_total (env : PipelineEnv) (cfg : PipelineConfig)
    (hp : ∀ n e, isErr (env.publishOutcome n e) = false)
    (hi : ∀ n d, isErr (env.indexOutcome n d) = false) :
    ∀ (pairs : List (Bool × Frame)) (s : LoopState),
      ∃ s', runFrames env cfg pairs s = Except.ok s' := by
  intro pairs
  induction pairs with
  | nil => intro s; exact ⟨s, rfl⟩
  | cons head rest ih =>
    intro s
    obtain ⟨success, frame⟩ := head
    cases hsucc : success
    · exact ⟨s, by simp [runFrames]⟩
    · obtain ⟨s1, h1⟩ := processDetections_total env cfg frame hp hi
        (env.detect frame)
        { s with stats := { s.stats with
            detections := s.stats.detections + (env.detect frame).length } }
      by_cases hq : (cfg.display && (env.key s1.iter % 256 == 113)) = true
      · exact ⟨s1, by simp [runFrames, h1, hq]⟩
      · obtain ⟨s', hs'⟩ := ih
          { s1 with
            stats := { s1.stats with
                       frames_processed := s1.stats.frames_processed + 1 }
            iter := s1.iter + 1 }
        exact ⟨s', by simp [runFrames, h1, hq, hs']⟩

/-- Counterexample to claim C1: with both sinks enabled, in a run whose
every publish and index call returns without raising but reports failure
(`False`), the orchestrator still increments `events_published` and
`documents_indexed` — the boolean result of the call is never inspected
(`orchestrator.py` lines 82-83 and 93-94). -/
theorem sink_failure_counter_counterexample :
    envPubFalse.publishOutcome 0
      (create_quality_event "t" "apple" "medium" 68 (9 / 10) none none) =
      Except.ok false ∧
    envPubFalse.indexOutcome 0
      (create_fruit_document "s" "t" "apple" "medium" 68 (9 / 10) none none none) =
      Except.ok false ∧
    process_shelf_video envPubFalse cfgBothSinks [(true, oneFrame)] =
      Except.ok { frames_processed := 1, detections := 1,
                  events_published := 1, documents_indexed := 1 } :=
  ⟨rfl, rfl, by decide⟩

/-- Amended claim C1: the statistics counters `events_published` and
`documents_indexed` are incremented once per publish/index call regardless
of the boolean the call reports, so in any run that returns statistics each
enabled sink's counter equals the detections counter; and a sink call that
raises an exception is not absorbed — it propagates and aborts the run
before statistics are returned. -/
theorem sink_counters_per_call_and_raise_aborts (env : PipelineEnv)
    (cfg : PipelineConfig) (reads : List (Bool × Frame)) :
    (∀ stats, process_shelf_video env cfg reads = Except.ok stats →
      (cfg.enable_events = true → stats.events_published = stats.detections) ∧
      (cfg.enable_search = true → stats.documents_indexed = stats.detections)) ∧
    (∀ (f : Frame) (rest : List (Bool × Frame)),
      cfg.enable_events = true →
      (∀ e, env.publishOutcome 0 e = Except.error ()) →
      stream_frames reads cfg.max_frames = (true, f) :: rest →
      env.detect f ≠ [] →
      process_shelf_video env cfg reads = Except.error ()) := by
  constructor
  · intro stats h
    simp only [process_shelf_video] at h
    split at h
    · exact absurd h (by simp)
    · rename_i sE hsE
      simp only [Except.ok.injEq] at h
      subst h
      have hc := runFrames_counts env cfg
        (stream_frames reads cfg.max_frames) _ sE hsE
      refine ⟨fun hv => ?_, fun hs => ?_⟩
      · have hx : sE.stats.events_published + 0 =
            0 + sE.stats.detections := hc.1 hv
        omega
      · have hx : sE.stats.documents_indexed + 0 =
            0 + sE.stats.detections := hc.2 hs
        omega
  · intro f rest hev hpub hstream hdet
    obtain ⟨d, ds, hds⟩ := List.exists_cons_of_ne_nil hdet
    simp only [process_shelf_video]
    rw [hstream]
    have hrun : runFrames env cfg ((true, f) :: rest)
        { stats := ⟨0, 0, 0, 0⟩, pubCalls := 0, idxCalls := 0, iter := 0 } =
        Except.error () := by
      simp only [runFrames, Bool.not_true, Bool.false_eq_true, if_false]
      rw [hds]
      simp only [processDetections, processDetection, publishStep]
      simp [hev, hpub]
    rw [hrun]

/-- Witness for the amended C1: with sinks that report failure the counters
still equal the detections counter, and with a raising publisher the run
aborts with the propagated exception. -/
theorem sink_counters_per_call_witness :
    ((1 : ℕ) = 1 ∧ (1 : ℕ) = 1) ∧
    process_shelf_video envPubRaise cfgBothSinks [(true, oneFrame)] =
      Except.error () := by
  constructor
  · have h := (sink_counters_per_call_and_raise_aborts envPubFalse
      cfgBothSinks [(true, oneFrame)]).1
      { frames_processed := 1, detections := 1,
        events_published := 1, documents_indexed := 1 } (by decide)
    exact ⟨h.1 rfl, h.2 rfl⟩
  · exact (sink_counters_per_call_and_raise_aborts envPubRaise
      cfgBothSinks [(true, oneFrame)]).2 oneFrame [] rfl (fun e => rfl)
      (by decide) (by decide)

/-- Counterexample to claim C3: a run capped at N = 2 over a source with 2
good reads (no end-of-stream before the cap) returns
`frames_processed = 0`, because the display poll reports the `q` key on the
first frame and the loop breaks before the counter is incremented
(`orchestrator.py` lines 102-103 precede line 107). -/
theorem frames_processed_cancel_counterexample :
    process_shelf_video envCancel cfgDisplayCap2 reads2 =
      Except.ok { frames_processed := 0, detections := 0,
                  events_published := 0, documents_indexed := 0 } ∧
    ((reads2.takeWhile (fun p => p.1)).length : ℤ) = 2 ∧
    cfgDisplayCap2.max_frames = 2 ∧
    cfgDisplayCap2.display = true :=
  ⟨by decide, by decide, rfl, rfl⟩

/-- Amended claim C3: for a run capped at `N > 0` frames that returns
statistics, `frames_processed ≤ N`, and it equals `N` unless the source
reports end-of-stream (or a failed read) before `N` frames, or the user
cancels via the `q` key while display is enabled. -/
theorem frames_processed_cap_eos_or_cancel (env : PipelineEnv)
    (cfg : PipelineConfig) (reads : List (Bool × Frame)) (N : ℤ)
    (stats : RunStats) (hN : cfg.max_frames = N) (hpos : 0 < N)
    (h : process_shelf_video env cfg reads = Except.ok stats) :
    (stats.frames_processed : ℤ) ≤ N ∧
    ((stats.frames_processed : ℤ) = N ∨
      ((reads.takeWhile (fun p => p.1)).length : ℤ) < N ∨
      (cfg.display = true ∧ ∃ i : ℕ, env.key i % 256 = 113)) := by
  simp only [process_shelf_video] at h
  split at h
  · exact absurd h (by simp)
  · rename_i sE hsE
    simp only [Except.ok.injEq] at h
    subst h
    have hall : ∀ p ∈ stream_frames reads cfg.max_frames, p.1 = true :=
      fun p hp => streamFrom_all_success cfg.max_frames reads 0 p hp
    obtain ⟨hle, hdisj⟩ := runFrames_fp env cfg
      (stream_frames reads cfg.max_frames) hall _ sE hsE
    have hlen : (stream_frames reads cfg.max_frames).length =
        min (N.toNat - 0) (reads.takeWhile (fun p => p.1)).length := by
      rw [hN]
      exact streamFrom_length N hpos reads 0
    have hle' : sE.stats.frames_processed ≤
        0 + (stream_frames reads cfg.max_frames).length := hle
    rw [hlen] at hle'
    constructor
    · omega
    · rcases hdisj with heqf | hc
      · have heq' : sE.stats.frames_processed =
            0 + (stream_frames reads cfg.max_frames).length := heqf
        rw [hlen] at heq'
        by_cases htw : ((reads.takeWhile (fun p => p.1)).length : ℤ) < N
        · exact Or.inr (Or.inl htw)
        · left
          omega
      · exact Or.inr (Or.inr hc)

/-- Witness for the amended C3: a quiet run (no key press, no detections)
capped at 2 frames over 2 good reads processes exactly 2 frames. -/
theorem frames_processed_cap_witness :
    (((2 : ℕ) : ℤ) ≤ 2) ∧
    (((2 : ℕ) : ℤ) = 2 ∨
      ((reads2.takeWhile (fun p => p.1)).length : ℤ) < 2 ∨
      (cfgQuietCap2.display = true ∧ ∃ i : ℕ, envQuiet.key i % 256 = 113)) :=
  frames_processed_cap_eos_or_cancel envQuiet cfgQuietCap2 reads2 2
    { frames_processed := 2, detections := 0,
      events_published := 0, documents_indexed := 0 }
    rfl (by decide) (by decide)

/-- Claim C6: when a sink is enabled but has no configured transport, every
`EventPublisher.publish` and `SearchRepository.index_document` call returns
success, the run completes, and each counter increments by exactly the
number of detections processed (the `detections` statistic). -/
theorem unconfigured_sinks_succeed_and_count (env : PipelineEnv)
    (cfg : PipelineConfig) (reads : List (Bool × Frame))
    (hpub : ∀ n e, env.publishOutcome n e =
      Except.ok ((EventPublisher.new none none).publish e))
    (hidx : ∀ n d, env.indexOutcome n d =
      Except.ok ((SearchRepository.new none none "fruits-quality").index_document d))
    (hev : cfg.enable_events = true) (hse : cfg.enable_search = true) :
    (∀ e, (EventPublisher.new none none).publish e = true) ∧
    (∀ d, (SearchRepository.new none none "fruits-quality").index_document d = true) ∧
    ∃ stats, process_shelf_video env cfg reads = Except.ok stats ∧
      stats.events_published = stats.detections ∧
      stats.documents_indexed = stats.detections := by
  have hp : ∀ n e, isErr (env.publishOutcome n e) = false :=
    fun n e => by rw [hpub n e]; rfl
  have hi : ∀ n d, isErr (env.indexOutcome n d) = false :=
    fun n d => by rw [hidx n d]; rfl
  obtain ⟨sE, hsE⟩ := runFrames_total env cfg hp hi
    (stream_frames reads cfg.max_frames)
    { stats := ⟨0, 0, 0, 0⟩, pubCalls := 0, idxCalls := 0, iter := 0 }
  have hc := runFrames_counts env cfg
    (stream_frames reads cfg.max_frames) _ sE hsE
  refine ⟨fun e => rfl, fun d => rfl, sE.stats, ?_, ?_, ?_⟩
  · simp only [process_shelf_video]
    rw [hsE]
  · have hx : sE.stats.events_published + 0 = 0 + sE.stats.detections :=
      hc.1 hev
    omega
  · have hx : sE.stats.documents_indexed + 0 = 0 + sE.stats.detections :=
      hc.2 hse
    omega

/-- Witness for C6 on a concrete one-frame, one-detection run through the
unconfigured publisher and repository. -/
theorem unconfigured_sinks_witness :
    (EventPublisher.new none none).publish
      (create_quality_event "t" "apple" "medium" 68 (9 / 10) none none) = true ∧
    (SearchRepository.new none none "fruits-quality").index_document
      (create_fruit_document "s" "t" "apple" "medium" 68 (9 / 10) none none none) = true ∧
    ∃ stats, process_shelf_video envUnconfigured cfgBothSinks
        [(true, oneFrame)] = Except.ok stats ∧
      stats.events_published = stats.detections ∧
      stats.documents_indexed = stats.detections := by
  have h := unconfigured_sinks_succeed_and_count envUnconfigured cfgBothSinks
    [(true, oneFrame)] (fun n e => rfl) (fun n d => rfl) rfl rfl
  exact ⟨h.1 _, h.2.1 _, h.2.2⟩
